import Mathlib

/-!
Shallow embedding of the Position and Balance Aggregation Engine of the
DeFi-Dashboard-ts repository, together with theorems settling the frozen
claims about it.

Conventions of the embedding:
* JavaScript number and bigint arithmetic is modelled exactly over `Nat`
  and `Rat`; decimal strings produced by `ethers.formatUnits` are modelled
  as the exact rational they denote.
* Network transports (the multicall contract, HTTP price sources, the
  block-explorer API) are modelled as explicit oracle parameters: a
  function giving the observed outcome of each upstream interaction.
* A JavaScript function that can throw is embedded with `Except String`;
  a `try { } catch { }` block is embedded by matching on that result.
-/

/-! ## Chain Read-Batcher (src/utils/multicall.ts) -/

/-- One read call handed to the batcher (interface MulticallCall):
target contract, function name, encoded-argument list, optional
allowFailure flag. -/
structure MulticallCall where
  target : String
  functionName : String
  params : List String
  allowFailure : Option Bool
deriving Repr, DecidableEq

/-- One element of the encoded array passed to aggregate3. -/
structure Agg3Call where
  target : String
  allowFailure : Bool
  callData : String
deriving Repr, DecidableEq

/-- Per-call outcome returned by batchCall (interface CallResult). -/
structure CallResult (T : Type) where
  success : Bool
  data : Option T
  error : Option String
deriving Repr, DecidableEq

/-- The encoding step of batchCall: `calls.map` building the
(target, allowFailure, callData) tuples; `allowFailure` defaults to
true (`call.allowFailure !== false`).  The ABI encoder
`iface.encodeFunctionData` is the oracle parameter `enc`. -/
def toCallDatas (enc : MulticallCall → String) (calls : List MulticallCall) :
    List Agg3Call :=
  calls.map fun c =>
    { target := c.target
      allowFailure := c.allowFailure ≠ some false
      callData := enc c }

/-- Decoding of the i-th aggregate3 result pair, from the body of
`results.map(([success, returnData], i) => ...)`.  `dec` is the oracle
for `iface.decodeFunctionResult` (its `Except.error` case is the inner
catch branch).  Reading `calls[i]` out of range throws in JavaScript and
is caught by the same inner catch. -/
def decodeAt {T : Type} (dec : MulticallCall → String → Except String T)
    (calls : List MulticallCall) (i : Nat) (r : Bool × String) :
    CallResult T :=
  if r.1 = false then
    { success := false, data := none, error := some "Call failed" }
  else
    match calls.get? i with
    | none =>
        { success := false, data := none
          error := some "Failed to decode result" }
    | some c =>
        match dec c r.2 with
        | .ok v => { success := true, data := some v, error := none }
        | .error e => { success := false, data := none, error := some e }

/-- The indexed map over the decoded aggregate3 results. -/
def decodeResults {T : Type} (dec : MulticallCall → String → Except String T)
    (calls : List MulticallCall) (i : Nat) :
    List (Bool × String) → List (CallResult T)
  | [] => []
  | r :: rest => decodeAt dec calls i r :: decodeResults dec calls (i + 1) rest

/-- `Multicall.batchCall`, with the transport as the oracle `agg`
(the outcome of `this.contract.aggregate3.staticCall`: `.error` is a
batch-level transport failure or revert).  The whole body sits in a
`try { } catch { }` that returns one failed CallResult per input call
instead of rethrowing, so the embedded function always returns `.ok`. -/
def batchCallE {T : Type} (enc : MulticallCall → String)
    (dec : MulticallCall → String → Except String T)
    (agg : List Agg3Call → Except String (List (Bool × String)))
    (calls : List MulticallCall) :
    Except String (List (CallResult T)) :=
  match agg (toCallDatas enc calls) with
  | .ok results => .ok (decodeResults dec calls 0 results)
  | .error e =>
      .ok (calls.map fun _ =>
        { success := false, data := none, error := some e })

theorem decodeResults_length {T : Type}
    (dec : MulticallCall → String → Except String T)
    (calls : List MulticallCall) (i : Nat) (rs : List (Bool × String)) :
    (decodeResults dec calls i rs).length = rs.length := by
  induction rs generalizing i with
  | nil => rfl
  | cons r rest ih => simp [decodeResults, ih]

theorem decodeResults_get? {T : Type}
    (dec : MulticallCall → String → Except String T)
    (calls : List MulticallCall) (i j : Nat) (rs : List (Bool × String)) :
    (decodeResults dec calls i rs).get? j =
      (rs.get? j).map (decodeAt dec calls (i + j)) := by
  induction rs generalizing i j with
  | nil => simp [decodeResults]
  | cons r rest ih =>
      cases j with
      | zero => simp [decodeResults]
      | succ j' =>
          have harith : i + 1 + j' = i + (j' + 1) := by omega
          show (decodeResults dec calls (i + 1) rest).get? j' = _

          rw [ih (i + 1) j', List.get?]
          rw [harith]

/-- A concrete encoder oracle used to instantiate the batcher theorems. -/
def encW : MulticallCall → String := fun _ => "0x"

/-- A concrete decoder oracle (decodes every return blob to itself). -/
def decW : MulticallCall → String → Except String String :=
  fun _ s => .ok s

/-- A concrete two-call input for the batcher theorems. -/
def callsW : List MulticallCall :=
  [{ target := "0xA", functionName := "balanceOf", params := ["0xW"],
     allowFailure := none },
   { target := "0xB", functionName := "symbol", params := [],
     allowFailure := some true }]

/-- A transport oracle on which aggregate3 succeeds, answering one
(success, returnData) pair per encoded call. -/
def aggOkW : List Agg3Call → Except String (List (Bool × String)) :=
  fun cs => .ok (cs.map fun _ => (true, "0x01"))

/-- A transport oracle on which the aggregate3 call itself fails
(batch-level transport failure). -/
def aggFailW : List Agg3Call → Except String (List (Bool × String)) :=
  fun _ => .error "RPC transport failure"

/-- C1: for every input list of read calls of length n, batchCall
returns a list of CallResults of exactly length n, the result at index
i being decoded against the call at index i (same order), on the
transport-success path as well as on the path where the batching
transport call itself fails; for n = 0 the result is the empty list.
The hypothesis is the aggregate3 contract: the on-chain batcher answers
exactly one (success, returnData) pair per submitted call. -/
theorem batchCall_length_and_order {T : Type}
    (enc : MulticallCall → String)
    (dec : MulticallCall → String → Except String T)
    (agg : List Agg3Call → Except String (List (Bool × String)))
    (calls : List MulticallCall)
    (hagg : ∀ rs, agg (toCallDatas enc calls) = .ok rs →
      rs.length = calls.length) :
    ∃ out, batchCallE enc dec agg calls = .ok out ∧
      out.length = calls.length ∧
      (calls = [] → out = []) ∧
      (∀ rs, agg (toCallDatas enc calls) = .ok rs →
        ∀ i, i < calls.length →
          out.get? i = (rs.get? i).map (decodeAt dec calls i)) ∧
      (∀ e, agg (toCallDatas enc calls) = .error e →
        ∀ i, i < calls.length →
          out.get? i =
            some { success := false, data := none, error := some e }) := by
  unfold batchCallE
  cases hcase : agg (toCallDatas enc calls) with
  | ok rs =>
      refine ⟨decodeResults dec calls 0 rs, rfl, ?_, ?_, ?_, ?_⟩
      · rw [decodeResults_length]; exact hagg rs hcase
      · intro hnil
        subst hnil
        have : rs.length = 0 := hagg rs hcase
        cases rs with
        | nil => rfl
        | cons a as => simp at this
      · intro rs' hrs' i _
        cases hrs'
        have := decodeResults_get? dec calls 0 i rs
        simpa using this
      · intro e he
        cases he
  | error e =>
      refine ⟨calls.map fun _ =>
        { success := false, data := none, error := some e }, rfl, ?_, ?_, ?_, ?_⟩
      · simp
      · intro hnil; subst hnil; rfl
      · intro rs' hrs'
        cases hrs'
      · intro e' he' i hi
        cases he'
        rw [List.get?_map]
        cases hc : calls.get? i with
        | none =>
            exact absurd (List.get?_eq_none.mp hc) (by omega)
        | some c => rfl

/-- Witness for C1 at a concrete two-call input and a concrete
conforming transport. -/
theorem batchCall_length_and_order_witness :
    ∃ out, batchCallE encW decW aggOkW callsW = .ok out ∧
      out.length = callsW.length ∧
      (callsW = [] → out = []) ∧
      (∀ rs, aggOkW (toCallDatas encW callsW) = .ok rs →
        ∀ i, i < callsW.length →
          out.get? i = (rs.get? i).map (decodeAt decW callsW i)) ∧
      (∀ e, aggOkW (toCallDatas encW callsW) = .error e →
        ∀ i, i < callsW.length →
          out.get? i =
            some { success := false, data := none, error := some e }) :=
  batchCall_length_and_order encW decW aggOkW callsW
    (by
      intro rs h
      have hrs : rs = [(true, "0x01"), (true, "0x01")] := by
        have h' : aggOkW (toCallDatas encW callsW) =
            .ok [(true, "0x01"), (true, "0x01")] := rfl
        rw [h'] at h
        cases h
        rfl
      subst hrs
      rfl)

/-- C3, counterexample: with two calls and a transport oracle on which
the aggregate3 call itself fails, batchCall does not raise — it returns
(Except.ok) a per-call all-failure list, so the claimed
BatchTransportError is never thrown. -/
theorem batchCall_transport_failure_returns :
    batchCallE encW decW aggFailW callsW =
      .ok [{ success := false, data := none,
             error := some "RPC transport failure" },
           { success := false, data := none,
             error := some "RPC transport failure" }] ∧
    ∀ e, batchCallE encW decW aggFailW callsW ≠ Except.error e := by
  constructor
  · rfl
  · intro e h
    have h' : batchCallE encW decW aggFailW callsW =
        .ok [{ success := false, data := none,
               error := some "RPC transport failure" },
             { success := false, data := none,
               error := some "RPC transport failure" }] := rfl
    rw [h'] at h
    cases h

/-- C3 amended: batchCall never throws at all — not for an individual
call failure and not for a batch-level transport failure either; when
the batching transport call itself fails it returns a list with one
failed CallResult (success = false, carrying the transport error
message) per input call, so the caller sees every call as failed
without any exception. -/
theorem batchCall_never_raises {T : Type}
    (enc : MulticallCall → String)
    (dec : MulticallCall → String → Except String T)
    (agg : List Agg3Call → Except String (List (Bool × String)))
    (calls : List MulticallCall) :
    (∃ out, batchCallE enc dec agg calls = .ok out) ∧
    (∀ e, agg (toCallDatas enc calls) = .error e →
      batchCallE enc dec agg calls =
        .ok (calls.map fun _ =>
          { success := false, data := none, error := some e })) := by
  constructor
  · unfold batchCallE
    cases agg (toCallDatas enc calls) with
    | ok rs => exact ⟨_, rfl⟩
    | error e => exact ⟨_, rfl⟩
  · intro e he
    unfold batchCallE
    rw [he]

/-- Witness for C3's amended theorem at the concrete failing
transport. -/
theorem batchCall_never_raises_witness :
    batchCallE encW decW aggFailW callsW =
      .ok (callsW.map fun _ =>
        { success := false, data := none,
          error := some "RPC transport failure" }) :=
  (batchCall_never_raises encW decW aggFailW callsW).2
    "RPC transport failure" rfl

/-! ## Lending-market APY (src/services/aaveService.ts) -/

/-- Exact model of `ethers.utils.formatUnits(v, d)`: the decimal string
denoting v / 10^d, read back as the exact rational it denotes. -/
def formatUnitsQ (v : Nat) (d : Nat) : ℚ := (v : ℚ) / 10 ^ d

/-- JavaScript `x.toFixed(2)` on a nonnegative number: round to two
decimal places, halves away from zero. -/
def jsToFixed2 (q : ℚ) : ℚ := ((⌊q * 100 + 1 / 2⌋ : ℤ) : ℚ) / 100

/-- JavaScript `x.toFixed(6)` on a nonnegative number. -/
def jsToFixed6 (q : ℚ) : ℚ :=
  ((⌊q * 10 ^ 6 + 1 / 2⌋ : ℤ) : ℚ) / 10 ^ 6

/-- The supplyAPY computation of AaveService.getPositions:
`(parseFloat(ethers.utils.formatUnits(liquidityRate, 25)) / 100).toFixed(2)`.
The borrowAPY on the variable borrow rate is the same expression. -/
def supplyAPYOf (liquidityRate : Nat) : ℚ :=
  jsToFixed2 (formatUnitsQ liquidityRate 25 / 100)

/-- The APY conversion in the spec's words: the ray-scaled rate turned
into a percentage via rate / 1e27 * 100, rounded to 2 decimals.  Stated
only to be compared against `supplyAPYOf`. -/
def supplyAPYSpecFormula (rate : Nat) : ℚ :=
  jsToFixed2 ((rate : ℚ) / 10 ^ 27 * 100)

/-- C2: the code divides the ray rate by 1e25 and then by a further
100, yielding rate / 1e27 instead of the percentage
rate / 1e27 * 100; at liquidityRate = 2.5e25 it renders 0.03 where the
spec (and the code's own comment, which says the rates are converted to
APY percentages) requires 2.50. -/
theorem supplyAPY_ray_percentage_mismatch :
    supplyAPYOf (25 * 10 ^ 24) = 3 / 100 ∧
    supplyAPYSpecFormula (25 * 10 ^ 24) = 5 / 2 ∧
    supplyAPYOf (25 * 10 ^ 24) ≠ supplyAPYSpecFormula (25 * 10 ^ 24) := by
  refine ⟨?_, ?_, ?_⟩
  · norm_num [supplyAPYOf, jsToFixed2, formatUnitsQ]
  · norm_num [supplyAPYSpecFormula, jsToFixed2]
  · norm_num [supplyAPYOf, supplyAPYSpecFormula, jsToFixed2, formatUnitsQ]

/-! ## Chain and protocol configuration (src/config/chains.ts,
src/config/protocols.js) and the unsupported-chain gates of the
protocol resolvers -/

/-- Native-currency descriptor of a chain (src/config/chains.ts). -/
structure NativeCurrency where
  name : String
  symbol : String
  decimals : Nat
  coingeckoId : Option String
deriving Repr, DecidableEq

/-- One chain entry of the chains table (src/config/chains.ts). -/
structure ChainConfig where
  name : String
  chainId : Nat
  rpcUrl : String
  explorerUrl : String
  nativeCurrency : NativeCurrency
deriving Repr, DecidableEq

/-- The chains table of src/config/chains.ts, in declaration order. -/
def chainsTable : List (String × ChainConfig) :=
  [("ethereum",
    { name := "Ethereum Mainnet", chainId := 1
      rpcUrl := "https://ethereum-rpc.publicnode.com"
      explorerUrl := "https://etherscan.io"
      nativeCurrency :=
        { name := "Ethereum", symbol := "ETH", decimals := 18
          coingeckoId := some "ethereum" } }),
   ("base",
    { name := "Base", chainId := 8453
      rpcUrl := "https://mainnet.base.org"
      explorerUrl := "https://basescan.org"
      nativeCurrency :=
        { name := "Ethereum", symbol := "ETH", decimals := 18
          coingeckoId := some "ethereum" } }),
   ("bittensor",
    { name := "Bittensor EVM Testnet", chainId := 945
      rpcUrl := "https://test.chain.opentensor.ai"
      explorerUrl := ""
      nativeCurrency :=
        { name := "Tao", symbol := "TAO", decimals := 18
          coingeckoId := some "bittensor" } }),
   ("monad",
    { name := "Monad Testnet", chainId := 10143
      rpcUrl := "https://testnet-rpc.monad.xyz"
      explorerUrl := ""
      nativeCurrency :=
        { name := "Monad", symbol := "MON", decimals := 18
          coingeckoId := none } })]

/-- The chain-name resolution used by every resolver:
`Object.keys(chains).find(key => chains[key].chainId === chainId)`. -/
def chainNameOf (chainId : Nat) : Option String :=
  (chainsTable.find? fun p => p.2.chainId = chainId).map (·.1)

/-- Aave per-chain configuration entry (src/config/protocols.js). -/
structure AaveConfig where
  poolAddressesProvider : String
  uiPoolDataProvider : String
deriving Repr, DecidableEq

/-- `protocols.aave` from src/config/protocols.js: configured for
ethereum only. -/
def aaveProtocolConfig : String → Option AaveConfig := fun cn =>
  if cn = "ethereum" then
    some { poolAddressesProvider :=
             "0x2f39d218133AFaB8F2B819B1066c7E434Ad94E9e"
           uiPoolDataProvider :=
             "0x3F78BBD206e4D3c504Eb854232EdA7e47E9Fd8FC" }
  else none

/-- Yearn per-chain configuration entry (src/config/protocols.js). -/
structure YearnConfig where
  vaults : List (String × String)
deriving Repr, DecidableEq

/-- `protocols.yearn` from src/config/protocols.js: configured for
ethereum only. -/
def yearnProtocolConfig : String → Option YearnConfig := fun cn =>
  if cn = "ethereum" then
    some { vaults :=
      [("ethVault", "0x19D3364A399d251E894aC732651be8B0E4e85001"),
       ("usdcVault", "0xa354F35829Ae975e850e23e9615b11Da1B3dC4DE"),
       ("daiVault", "0xdA816459F1AB5631232FE5e97a05BBBb94970c95")] }
  else none

/-- AaveService.getPositions restricted to its chain gate: resolve
chain id to a chain name, look up the protocol configuration; if either
is missing, return an empty list.  The remainder of the method (which
also swallows every error of its own into an empty list through its
try/catch) is the oracle `resolve`. -/
def aaveGetPositions {C P : Type} (cfgFor : String → Option C)
    (resolve : C → List P) (chainId : Nat) : Except String (List P) :=
  match chainNameOf chainId with
  | none => .ok []
  | some cn =>
      match cfgFor cn with
      | none => .ok []
      | some c => .ok (resolve c)

/-- CompoundService.getPositions restricted to its chain gate, same
shape as the Aave gate: missing chain or missing configuration returns
an empty list. -/
def compoundGetPositions {C P : Type} (cfgFor : String → Option C)
    (resolve : C → List P) (chainId : Nat) : Except String (List P) :=
  match chainNameOf chainId with
  | none => .ok []
  | some cn =>
      match cfgFor cn with
      | none => .ok []
      | some c => .ok (resolve c)

/-- YearnService.getPositions restricted to its chain gate: missing
chain or missing configuration throws
`Yearn not supported on chain <id>` instead of returning empty. -/
def yearnGetPositions {C P : Type} (cfgFor : String → Option C)
    (resolve : C → List P) (chainId : Nat) : Except String (List P) :=
  match chainNameOf chainId with
  | none => .error ("Yearn not supported on chain " ++ toString chainId)
  | some cn =>
      match cfgFor cn with
      | none =>
          .error ("Yearn not supported on chain " ++ toString chainId)
      | some c => .ok (resolve c)

/-- LidoService.getPositions restricted to its chain gate, which also
throws on a missing configuration entry. -/
def lidoGetPositions {C P : Type} (cfgFor : String → Option C)
    (resolve : C → List P) (chainId : Nat) : Except String (List P) :=
  match chainNameOf chainId with
  | none => .error ("Lido not supported on chain " ++ toString chainId)
  | some cn =>
      match cfgFor cn with
      | none =>
          .error ("Lido not supported on chain " ++ toString chainId)
      | some c => .ok (resolve c)

/-- C4, counterexample: on Base (chain id 8453, a resolved chain with
no yearn configuration entry) YearnService.getPositions raises instead
of returning an empty list, refuting the claim for the Yearn
resolver. -/
theorem yearn_unsupported_chain_raises :
    yearnGetPositions yearnProtocolConfig
        (fun _ => ([] : List Unit)) 8453 =
      .error "Yearn not supported on chain 8453" := by
  rfl

/-- C4 amended: the treatment of a missing configuration entry is split
per protocol — the Aave and Compound resolvers return an empty list
(not an error) when the protocol has no configuration for the resolved
chain, while the Yearn and Lido resolvers raise an
unsupported-protocol error instead. -/
theorem unsupported_chain_gate_split :
    (∀ (C P : Type) (cfgFor : String → Option C) (resolve : C → List P)
        (chainId : Nat) (cn : String), chainNameOf chainId = some cn →
        cfgFor cn = none →
        aaveGetPositions cfgFor resolve chainId = .ok []) ∧
    (∀ (C P : Type) (cfgFor : String → Option C) (resolve : C → List P)
        (chainId : Nat) (cn : String), chainNameOf chainId = some cn →
        cfgFor cn = none →
        compoundGetPositions cfgFor resolve chainId = .ok []) ∧
    (∀ (C P : Type) (cfgFor : String → Option C) (resolve : C → List P)
        (chainId : Nat) (cn : String), chainNameOf chainId = some cn →
        cfgFor cn = none →
        yearnGetPositions cfgFor resolve chainId =
          .error ("Yearn not supported on chain " ++ toString chainId)) ∧
    (∀ (C P : Type) (cfgFor : String → Option C) (resolve : C → List P)
        (chainId : Nat) (cn : String), chainNameOf chainId = some cn →
        cfgFor cn = none →
        lidoGetPositions cfgFor resolve chainId =
          .error ("Lido not supported on chain " ++ toString chainId)) := by
  refine ⟨?_, ?_, ?_, ?_⟩
  · intro C P cfgFor resolve chainId cn hcn hcfg
    simp only [aaveGetPositions, hcn, hcfg]
  · intro C P cfgFor resolve chainId cn hcn hcfg
    simp only [compoundGetPositions, hcn, hcfg]
  · intro C P cfgFor resolve chainId cn hcn hcfg
    simp only [yearnGetPositions, hcn, hcfg]
  · intro C P cfgFor resolve chainId cn hcn hcfg
    simp only [lidoGetPositions, hcn, hcfg]

/-- Witness for C4's amended theorem: on Base, the Aave configuration
entry is absent and the gate returns the empty list. -/
theorem unsupported_chain_gate_split_witness :
    aaveGetPositions aaveProtocolConfig
        (fun _ => ([] : List Unit)) 8453 = .ok [] :=
  unsupported_chain_gate_split.1 AaveConfig Unit aaveProtocolConfig
    (fun _ => []) 8453 "base" rfl rfl

/-! ## Resilient fetch wrapper (src/services/tokenService.ts):
getWithCache and withRetry -/

/-- One cache entry of TokenService: payload plus absolute expiry
instant in milliseconds. -/
structure CacheEntry (α : Type) where
  data : α
  expiry : Nat
deriving Repr, DecidableEq

/-- The in-process cache map; `Map.get`. -/
def cacheGet {α : Type} (cache : List (String × CacheEntry α))
    (key : String) : Option (CacheEntry α) :=
  (cache.find? fun p => p.1 = key).map (·.2)

/-- TokenService.CACHE_TTL: five minutes in milliseconds. -/
def CACHE_TTL : Nat := 5 * 60 * 1000

/-- The retry loop of TokenService.withRetry.  `fn attempt` is the
outcome of the producer's invocation for the 1-indexed attempt;
`rand attempt` is the `Math.random()` draw used for the jitter of the
delay inserted after that attempt.  Returns the final outcome, the
number of producer invocations made, and the list of inserted backoff
delays in order. -/
def withRetryGo {α : Type} (fn : Nat → Except String α) (rand : Nat → ℚ)
    (maxRetries : Nat) (baseDelay : ℚ) (attempt : Nat)
    (lastError : Option String) : Except String α × Nat × List ℚ :=
  if attempt > maxRetries then
    (.error (lastError.getD "Unknown error in withRetry"), 0, [])
  else
    match fn attempt with
    | .ok v => (.ok v, 1, [])
    | .error e =>
        if attempt = maxRetries then
          (.error e, 1, [])
        else
          let d := baseDelay * 2 ^ (attempt - 1) *
            (1 / 2 + rand attempt * (1 / 2))
          let rest :=
            withRetryGo fn rand maxRetries baseDelay (attempt + 1) (some e)
          (rest.1, rest.2.1 + 1, d :: rest.2.2)
termination_by maxRetries + 1 - attempt
decreasing_by simp_wf; omega

/-- TokenService.withRetry with its default parameters:
maxRetries = 3 attempts, baseDelay = 1000 milliseconds, and the delay
after a failed attempt being
`baseDelay * Math.pow(2, attempt - 1) * (0.5 + Math.random() * 0.5)`. -/
def withRetry {α : Type} (fn : Nat → Except String α) (rand : Nat → ℚ) :
    Except String α × Nat × List ℚ :=
  withRetryGo fn rand 3 1000 1 none

/-- The cache-miss path of TokenService.getWithCache: run the producer
through withRetry; on success store the result with expiry
now + CACHE_TTL; on failure the exception propagates before the store,
leaving the cache unchanged. -/
def getWithCacheMiss {α : Type} (cache : List (String × CacheEntry α))
    (now : Nat) (key : String) (fn : Nat → Except String α)
    (rand : Nat → ℚ) :
    Except String α × List (String × CacheEntry α) × Nat :=
  match withRetry fn rand with
  | (.ok d, n, _) =>
      (.ok d, (key, { data := d, expiry := now + CACHE_TTL }) :: cache, n)
  | (.error e, n, _) => (.error e, cache, n)

/-- TokenService.getWithCache: if a cached entry exists for the key and
its expiry is strictly in the future, return it with zero producer
invocations; otherwise take the miss path.  Returns the outcome, the
updated cache and the number of producer invocations. -/
def getWithCache {α : Type} (cache : List (String × CacheEntry α))
    (now : Nat) (key : String) (fn : Nat → Except String α)
    (rand : Nat → ℚ) :
    Except String α × List (String × CacheEntry α) × Nat :=
  match cacheGet cache key with
  | some en =>
      if en.expiry > now then (.ok en.data, cache, 0)
      else getWithCacheMiss cache now key fn rand
  | none => getWithCacheMiss cache now key fn rand

theorem withRetry_first_ok {α : Type} (fn : Nat → Except String α)
    (rand : Nat → ℚ) (d : α) (h : fn 1 = .ok d) :
    withRetry fn rand = (.ok d, 1, []) := by
  unfold withRetry
  unfold withRetryGo
  simp [h]

theorem withRetryGo_invokes {α : Type} (fn : Nat → Except String α)
    (rand : Nat → ℚ) (maxRetries : Nat) (baseDelay : ℚ) (attempt : Nat)
    (lastError : Option String) (h : attempt ≤ maxRetries) :
    1 ≤ (withRetryGo fn rand maxRetries baseDelay attempt lastError).2.1 := by
  unfold withRetryGo
  have h' : ¬ attempt > maxRetries := by omega
  simp only [h', if_false]
  cases fn attempt with
  | ok v => simp
  | error e =>
      by_cases he : attempt = maxRetries <;> simp [he]

theorem withRetry_all_fail {α : Type} (fn : Nat → Except String α)
    (rand : Nat → ℚ) (e1 e2 e3 : String)
    (h1 : fn 1 = .error e1) (h2 : fn 2 = .error e2)
    (h3 : fn 3 = .error e3) :
    withRetry fn rand =
      (.error e3, 3,
       [1000 * 2 ^ (1 - 1) * (1 / 2 + rand 1 * (1 / 2)),
        1000 * 2 ^ (2 - 1) * (1 / 2 + rand 2 * (1 / 2))]) := by
  have s3 : withRetryGo fn rand 3 1000 3 (some e2) = (.error e3, 1, []) := by
    unfold withRetryGo; simp [h3]
  have s2 : withRetryGo fn rand 3 1000 2 (some e1) =
      (.error e3, 2, [1000 * 2 ^ (2 - 1) * (1 / 2 + rand 2 * (1 / 2))]) := by
    unfold withRetryGo; simp [h2, s3]
  unfold withRetry withRetryGo
  simp [h1, s2]

theorem withRetry_second_ok {α : Type} (fn : Nat → Except String α)
    (rand : Nat → ℚ) (e1 : String) (v : α)
    (h1 : fn 1 = .error e1) (h2 : fn 2 = .ok v) :
    withRetry fn rand =
      (.ok v, 2, [1000 * 2 ^ (1 - 1) * (1 / 2 + rand 1 * (1 / 2))]) := by
  have s2 : withRetryGo fn rand 3 1000 2 (some e1) = (.ok v, 1, []) := by
    unfold withRetryGo; simp [h2]
  unfold withRetry withRetryGo
  simp [h1, s2]

theorem withRetry_third {α : Type} (fn : Nat → Except String α)
    (rand : Nat → ℚ) (e1 e2 : String)
    (h1 : fn 1 = .error e1) (h2 : fn 2 = .error e2) :
    ∃ r, withRetry fn rand =
      (r, 3,
       [1000 * 2 ^ (1 - 1) * (1 / 2 + rand 1 * (1 / 2)),
        1000 * 2 ^ (2 - 1) * (1 / 2 + rand 2 * (1 / 2))]) := by
  cases h3 : fn 3 with
  | ok v =>
      refine ⟨.ok v, ?_⟩
      have s3 : withRetryGo fn rand 3 1000 3 (some e2) = (.ok v, 1, []) := by
        unfold withRetryGo; simp [h3]
      have s2 : withRetryGo fn rand 3 1000 2 (some e1) =
          (.ok v, 2, [1000 * 2 ^ (2 - 1) * (1 / 2 + rand 2 * (1 / 2))]) := by
        unfold withRetryGo; simp [h2, s3]
      unfold withRetry withRetryGo
      simp [h1, s2]
  | error e3 =>
      exact ⟨.error e3, withRetry_all_fail fn rand e1 e2 e3 h1 h2 h3⟩

/-- C6: the producer runs under a policy of at most 3 attempts, and the
delay inserted before attempt i (1-indexed, i > 1) — the j-th inserted
delay, j = i - 2 — equals base * 2 ^ (i - 2) * u for a jitter factor
u = 0.5 + Math.random() * 0.5 lying in [0.5, 1), with the base
defaulting to 1000 milliseconds. -/
theorem withRetry_backoff_policy {α : Type} (fn : Nat → Except String α)
    (rand : Nat → ℚ) (hr : ∀ k, 0 ≤ rand k ∧ rand k < 1) :
    (withRetry fn rand).2.1 ≤ 3 ∧
    ∀ j (h : j < (withRetry fn rand).2.2.length),
      ∃ u : ℚ, 1 / 2 ≤ u ∧ u < 1 ∧
        (withRetry fn rand).2.2.get ⟨j, h⟩ = 1000 * 2 ^ j * u := by
  have hu : ∀ k : Nat, 1 / 2 ≤ 1 / 2 + rand k * (1 / 2) ∧
      1 / 2 + rand k * (1 / 2) < 1 := by
    intro k
    have := hr k
    constructor <;> nlinarith [this.1, this.2]
  cases h1 : fn 1 with
  | ok v =>
      rw [withRetry_first_ok fn rand v h1]
      refine ⟨by norm_num, ?_⟩
      intro j h
      simp at h
  | error e1 =>
      cases h2 : fn 2 with
      | ok v =>
          rw [withRetry_second_ok fn rand e1 v h1 h2]
          refine ⟨by norm_num, ?_⟩
          intro j h
          simp at h
          subst h
          exact ⟨1 / 2 + rand 1 * (1 / 2), (hu 1).1, (hu 1).2, by norm_num⟩
      | error e2 =>
          obtain ⟨r, hr2⟩ := withRetry_third fn rand e1 e2 h1 h2
          rw [hr2]
          refine ⟨by norm_num, ?_⟩
          intro j h
          simp at h
          interval_cases j
          · exact ⟨1 / 2 + rand 1 * (1 / 2), (hu 1).1, (hu 1).2, by norm_num⟩
          · exact ⟨1 / 2 + rand 2 * (1 / 2), (hu 2).1, (hu 2).2, by norm_num⟩

/-- A producer trace whose every attempt fails, used as witness
input. -/
def fnFailW : Nat → Except String Nat := fun _ => .error "boom"

/-- A deterministic stand-in for Math.random, used as witness input. -/
def randW : Nat → ℚ := fun _ => 0

/-- Witness for C6 at a concrete always-failing producer and a
concrete jitter draw. -/
theorem withRetry_backoff_policy_witness :
    (withRetry fnFailW randW).2.1 ≤ 3 ∧
    ∀ j (h : j < (withRetry fnFailW randW).2.2.length),
      ∃ u : ℚ, 1 / 2 ≤ u ∧ u < 1 ∧
        (withRetry fnFailW randW).2.2.get ⟨j, h⟩ = 1000 * 2 ^ j * u :=
  withRetry_backoff_policy fnFailW randW
    (by intro k; constructor <;> norm_num [randW])

theorem getWithCacheMiss_invocations {α : Type}
    (cache : List (String × CacheEntry α)) (now : Nat) (key : String)
    (fn : Nat → Except String α) (rand : Nat → ℚ) :
    (getWithCacheMiss cache now key fn rand).2.2 = (withRetry fn rand).2.1 := by
  unfold getWithCacheMiss
  rcases h : withRetry fn rand with ⟨res, n, ds⟩
  cases res <;> rfl

/-- C5: a live (non-expired) cache entry is returned with zero
producer invocations; a fresh successful fetch stores an entry expiring
at now + CACHE_TTL, so a second call with the same key within the TTL
returns the cached data with zero further producer invocations (one
invocation across both calls); and an entry whose expiry instant has
been reached is never returned — the producer is re-invoked through
the retry path instead. -/
theorem getWithCache_ttl_single_fetch {α : Type}
    (cache : List (String × CacheEntry α)) (key : String) (t1 t2 : Nat)
    (fn1 fn2 : Nat → Except String α) (r1 r2 : Nat → ℚ) (d : α)
    (hnone : cacheGet cache key = none)
    (hfirst : fn1 1 = .ok d)
    (h12 : t1 ≤ t2) (httl : t2 < t1 + CACHE_TTL) :
    getWithCache cache t1 key fn1 r1 =
      (.ok d, (key, { data := d, expiry := t1 + CACHE_TTL }) :: cache, 1) ∧
    getWithCache
        ((key, { data := d, expiry := t1 + CACHE_TTL }) :: cache)
        t2 key fn2 r2 =
      (.ok d, (key, { data := d, expiry := t1 + CACHE_TTL }) :: cache, 0) ∧
    (∀ (c : List (String × CacheEntry α)) (now : Nat)
        (fn : Nat → Except String α) (r : Nat → ℚ) (en : CacheEntry α),
      cacheGet c key = some en → en.expiry ≤ now →
      1 ≤ (getWithCache c now key fn r).2.2) := by
  refine ⟨?_, ?_, ?_⟩
  · unfold getWithCache
    rw [hnone]
    unfold getWithCacheMiss
    rw [withRetry_first_ok fn1 r1 d hfirst]
  · have hget : cacheGet
        ((key, { data := d, expiry := t1 + CACHE_TTL }) :: cache) key =
        some { data := d, expiry := t1 + CACHE_TTL } := by
      simp [cacheGet, List.find?]
    unfold getWithCache
    rw [hget]
    have : t1 + CACHE_TTL > t2 := by omega
    simp only [this, if_true]
  · intro c now fn r en hen hexp
    unfold getWithCache
    rw [hen]
    have : ¬ en.expiry > now := by omega
    simp only [this, if_false]
    rw [getWithCacheMiss_invocations]
    exact withRetryGo_invokes fn r 3 1000 1 none (by omega)

/-- A producer trace succeeding on the first attempt, used as witness
input. -/
def fnOkW : Nat → Except String Nat := fun _ => .ok 7

/-- Witness for C5 at a concrete key, concrete times within the TTL
and a first-attempt-success producer. -/
theorem getWithCache_ttl_single_fetch_witness :
    getWithCache ([] : List (String × CacheEntry Nat)) 0
        "balance_ethereum_0xW_0xT" fnOkW randW =
      (.ok 7, ("balance_ethereum_0xW_0xT",
        { data := 7, expiry := 0 + CACHE_TTL }) :: [], 1) ∧
    getWithCache
        (("balance_ethereum_0xW_0xT",
          { data := 7, expiry := 0 + CACHE_TTL }) :: [])
        1000 "balance_ethereum_0xW_0xT" fnOkW randW =
      (.ok 7, ("balance_ethereum_0xW_0xT",
        { data := 7, expiry := 0 + CACHE_TTL }) :: [], 0) ∧
    (∀ (c : List (String × CacheEntry Nat)) (now : Nat)
        (fn : Nat → Except String Nat) (r : Nat → ℚ) (en : CacheEntry Nat),
      cacheGet c "balance_ethereum_0xW_0xT" = some en → en.expiry ≤ now →
      1 ≤ (getWithCache c now "balance_ethereum_0xW_0xT" fn r).2.2) :=
  getWithCache_ttl_single_fetch [] "balance_ethereum_0xW_0xT" 0 1000
    fnOkW fnOkW randW randW 7 rfl rfl (by decide) (by decide)

/-- C7: when every retry attempt of the producer fails, getWithCache
propagates the error of the last attempt and leaves the cache
unchanged for the key (the failure is not stored), so a subsequent
call with the same key invokes the producer again. -/
theorem getWithCache_failure_not_cached {α : Type}
    (cache : List (String × CacheEntry α)) (key : String) (t : Nat)
    (fn : Nat → Except String α) (rand : Nat → ℚ) (e1 e2 e3 : String)
    (hnone : cacheGet cache key = none)
    (h1 : fn 1 = .error e1) (h2 : fn 2 = .error e2)
    (h3 : fn 3 = .error e3) :
    getWithCache cache t key fn rand = (.error e3, cache, 3) ∧
    (∀ (t' : Nat) (fn' : Nat → Except String α) (rand' : Nat → ℚ),
      1 ≤ (getWithCache cache t' key fn' rand').2.2) := by
  constructor
  · unfold getWithCache
    rw [hnone]
    unfold getWithCacheMiss
    rw [withRetry_all_fail fn rand e1 e2 e3 h1 h2 h3]
  · intro t' fn' rand'
    unfold getWithCache
    rw [hnone]
    rw [getWithCacheMiss_invocations]
    exact withRetryGo_invokes fn' rand' 3 1000 1 none (by omega)

/-- Witness for C7 at a concrete key and an always-failing producer. -/
theorem getWithCache_failure_not_cached_witness :
    getWithCache ([] : List (String × CacheEntry Nat)) 0
        "tokenInfo_ethereum_0xT" fnFailW randW = (.error "boom", [], 3) ∧
    (∀ (t' : Nat) (fn' : Nat → Except String Nat) (rand' : Nat → ℚ),
      1 ≤ (getWithCache ([] : List (String × CacheEntry Nat)) t'
        "tokenInfo_ethereum_0xT" fn' rand').2.2) :=
  getWithCache_failure_not_cached [] "tokenInfo_ethereum_0xT" 0
    fnFailW randW "boom" "boom" "boom" rfl rfl rfl rfl

/-! ## Balance valuation (src/services/priceService.ts,
PriceService.calculatePortfolioValue) -/

/-- One token handed to calculatePortfolioValue (interface
PriceTokenInput); the raw balance and decimals strings are modelled by
the numbers they denote. -/
structure PriceTokenInput where
  address : String
  balance : Nat
  symbol : String
  name : String
  decimals : Nat
  type : String
  chainKey : String
deriving Repr, DecidableEq

/-- Character-wise model of JavaScript toLowerCase, as applied to
ASCII addresses and symbols. -/
def strLower (s : String) : String := String.mk (s.data.map Char.toLower)

/-- Character-wise model of JavaScript toUpperCase. -/
def strUpper (s : String) : String := String.mk (s.data.map Char.toUpper)

/-- Lookup in the price map object (keys of the shape
chainKey|address_or_coingecko_id). -/
def pmGet (pm : List (String × ℚ)) (k : String) : Option ℚ :=
  (pm.find? fun p => p.1 = k).map (·.2)

/-- `priceMap[key] || 0`: an absent entry reads as zero. -/
def pmGetD (pm : List (String × ℚ)) (k : String) : ℚ :=
  (pmGet pm k).getD 0

/-- PriceService.symbolToCoingeckoIdFallback. -/
def symbolToCoingeckoIdFallback : String → Option String := fun s =>
  if s = "LINK" then some "chainlink"
  else if s = "USDC" then some "usd-coin"
  else if s = "USDT" then some "tether"
  else if s = "WETH" then some "weth"
  else if s = "WBTC" then some "wrapped-bitcoin"
  else if s = "DAI" then some "dai"
  else if s = "SHIB" then some "shiba-inu"
  else none

/-- `chains[chainKey]?.nativeCurrency.coingeckoId` over the chains
table of src/config/chains.ts. -/
def nativeCoingeckoIdOf (ck : String) : Option String :=
  if ck = "ethereum" then some "ethereum"
  else if ck = "base" then some "ethereum"
  else if ck = "bittensor" then some "bittensor"
  else none

/-- The price resolution of step 3 of calculatePortfolioValue for one
token: native tokens read the native-id entry of the price map (absent
reads as 0); ERC20 tokens with a well-formed address read the
lowercased-address entry, falling back — when that read is zero — to
the symbol table and, if the fallback id is not already priced in the
map, to one more simple/price fetch (`ff`, whose result is cached into
the map); every unresolved case yields price 0.  `isAddr` is
ethers.isAddress, `ff` the network oracle for the fallback fetch, `pm`
the price map assembled by steps 1 and 2 from the CoinGecko
responses. -/
def resolveTokenPrice (isAddr : String → Bool) (ff : String → Option ℚ)
    (pm : List (String × ℚ)) (t : PriceTokenInput) :
    ℚ × List (String × ℚ) :=
  if t.type = "NATIVE" ∧ (nativeCoingeckoIdOf t.chainKey).isSome = true then
    ((nativeCoingeckoIdOf t.chainKey).elim 0
      (fun cid => pmGetD pm (t.chainKey ++ "|" ++ cid)), pm)
  else if isAddr t.address = true then
    let p0 := pmGetD pm (t.chainKey ++ "|" ++ strLower t.address)
    if p0 = 0 then
      match symbolToCoingeckoIdFallback (strUpper t.symbol) with
      | some fid =>
          let key := t.chainKey ++ "|" ++ fid
          if pmGetD pm key ≠ 0 then (pmGetD pm key, pm)
          else
            match ff fid with
            | some p => (p, (key, p) :: pm)
            | none => (0, pm)
      | none => (0, pm)
    else (p0, pm)
  else (0, pm)

/-- `valuation.valueByChainUSD[chainKey] = (old || 0) + valueUSD`. -/
def updChain (byChain : List (String × ℚ)) (ck : String) (v : ℚ) :
    List (String × ℚ) :=
  (ck, pmGetD byChain ck + v) :: byChain.filter fun p => ¬ p.1 = ck

/-- The step-3 loop of calculatePortfolioValue: resolve each token's
unit price (threading the price map, which the symbol fallback may
extend), compute `valueUSD = parseFloat(formatUnits(balance, decimals))
* price` (exactly: balance / 10^decimals * price), collect the valued
tokens in input order, and accumulate per-chain and total sums. -/
def cpvGo (isAddr : String → Bool) (ff : String → Option ℚ) :
    List (String × ℚ) → List (String × ℚ) → ℚ → List PriceTokenInput →
    List (PriceTokenInput × ℚ) × List (String × ℚ) × ℚ
  | _, byChain, total, [] => ([], byChain, total)
  | pm, byChain, total, t :: ts =>
      let pr := resolveTokenPrice isAddr ff pm t
      let v := (t.balance : ℚ) / 10 ^ t.decimals * pr.1
      let rest :=
        cpvGo isAddr ff pr.2 (updChain byChain t.chainKey v) (total + v) ts
      ((t, v) :: rest.1, rest.2)

/-- The PortfolioValuation result object. -/
structure PortfolioValuation where
  totalValueUSD : ℚ
  valueByChainUSD : List (String × ℚ)
  tokensWithValue : List (PriceTokenInput × ℚ)

/-- PriceService.calculatePortfolioValue: initialise the per-chain
totals to zero for every chain present in the input, then run the
valuation loop. -/
def calculatePortfolioValue (isAddr : String → Bool)
    (ff : String → Option ℚ) (pm : List (String × ℚ))
    (tokens : List PriceTokenInput) : PortfolioValuation :=
  let bc0 := tokens.foldl
    (fun bc t => if (pmGet bc t.chainKey).isSome then bc
                 else bc ++ [(t.chainKey, 0)]) []
  let r := cpvGo isAddr ff pm bc0 0 tokens
  { totalValueUSD := r.2.2, valueByChainUSD := r.2.1,
    tokensWithValue := r.1 }

theorem cpvGo_mem (isAddr : String → Bool) (ff : String → Option ℚ)
    (pm byChain : List (String × ℚ)) (total : ℚ)
    (ts : List PriceTokenInput) (pr : PriceTokenInput × ℚ)
    (h : pr ∈ (cpvGo isAddr ff pm byChain total ts).1) :
    ∃ pm', pr.2 = (pr.1.balance : ℚ) / 10 ^ pr.1.decimals *
      (resolveTokenPrice isAddr ff pm' pr.1).1 := by
  induction ts generalizing pm byChain total with
  | nil => simp [cpvGo] at h
  | cons t ts ih =>
      simp only [cpvGo, List.mem_cons] at h
      rcases h with h | h
      · subst h
        exact ⟨pm, rfl⟩
      · exact ih _ _ _ h

/-- The 6-decimal 1000000-unit token of scenario A. -/
def tokA : PriceTokenInput :=
  { address := "0xaaaaaaaaaaaaaaaaaaaaaaaaaaaaaaaaaaaaaaaa",
    balance := 1000000, symbol := "USDX", name := "USD X",
    decimals := 6, type := "ERC20", chainKey := "ethereum" }

/-- A concrete address-validity oracle standing in for
ethers.isAddress. -/
def isAddrW : String → Bool := fun s =>
  s.data.length = 42 && s.data.take 2 = ['0', 'x']

/-- A fallback-fetch oracle on which every simple/price request
fails. -/
def ffNoneW : String → Option ℚ := fun _ => none

/-- A price map pricing scenario A's token at one dollar by contract
address. -/
def pmA : List (String × ℚ) :=
  [("ethereum|" ++ "0xaaaaaaaaaaaaaaaaaaaaaaaaaaaaaaaaaaaaaaaa", 1)]

/-- C8: every valued token's valueUSD equals
humanBalance * unitPriceUSD with humanBalance = rawBalance /
10^decimals; the unit price is 0 whenever neither the address-based
nor the symbol-based lookup resolves (no error is possible — the
resolution is total); and scenario A: 1000000 raw units at 6 decimals
priced at one dollar value to humanBalance 1 and valueUSD 1. -/
theorem calculatePortfolioValue_valuation :
    (∀ (isAddr : String → Bool) (ff : String → Option ℚ)
        (pm : List (String × ℚ)) (tokens : List PriceTokenInput)
        (pr : PriceTokenInput × ℚ),
      pr ∈ (calculatePortfolioValue isAddr ff pm tokens).tokensWithValue →
      ∃ pm', pr.2 = (pr.1.balance : ℚ) / 10 ^ pr.1.decimals *
        (resolveTokenPrice isAddr ff pm' pr.1).1) ∧
    (∀ (isAddr : String → Bool) (ff : String → Option ℚ)
        (pm : List (String × ℚ)) (t : PriceTokenInput),
      ¬(t.type = "NATIVE" ∧
        (nativeCoingeckoIdOf t.chainKey).isSome = true) →
      isAddr t.address = false →
      (resolveTokenPrice isAddr ff pm t).1 = 0) ∧
    (∀ (isAddr : String → Bool) (ff : String → Option ℚ)
        (pm : List (String × ℚ)) (t : PriceTokenInput) (cid : String),
      t.type = "NATIVE" → nativeCoingeckoIdOf t.chainKey = some cid →
      pmGetD pm (t.chainKey ++ "|" ++ cid) = 0 →
      (resolveTokenPrice isAddr ff pm t).1 = 0) ∧
    (∀ (isAddr : String → Bool) (ff : String → Option ℚ)
        (pm : List (String × ℚ)) (t : PriceTokenInput),
      ¬(t.type = "NATIVE" ∧
        (nativeCoingeckoIdOf t.chainKey).isSome = true) →
      isAddr t.address = true →
      pmGetD pm (t.chainKey ++ "|" ++ strLower t.address) = 0 →
      (match symbolToCoingeckoIdFallback (strUpper t.symbol) with
       | none => True
       | some fid =>
           pmGetD pm (t.chainKey ++ "|" ++ fid) = 0 ∧ ff fid = none) →
      (resolveTokenPrice isAddr ff pm t).1 = 0) ∧
    ((calculatePortfolioValue isAddrW ffNoneW pmA [tokA]).tokensWithValue =
      [(tokA, 1)] ∧
     (tokA.balance : ℚ) / 10 ^ tokA.decimals = 1) := by
  refine ⟨?_, ?_, ?_, ?_, ?_, ?_⟩
  · intro isAddr ff pm tokens pr h
    simp only [calculatePortfolioValue] at h
    exact cpvGo_mem isAddr ff pm _ 0 tokens pr h
  · intro isAddr ff pm t hnat haddr
    unfold resolveTokenPrice
    rw [if_neg hnat, if_neg (by simp [haddr])]
  · intro isAddr ff pm t cid hty hcid hpm
    unfold resolveTokenPrice
    rw [if_pos ⟨hty, by rw [hcid]; rfl⟩, hcid]
    simpa using hpm
  · intro isAddr ff pm t hnat haddr hp0 hfb
    unfold resolveTokenPrice
    rw [if_neg hnat, if_pos haddr]
    simp only [hp0, if_pos rfl]
    cases hfid : symbolToCoingeckoIdFallback (strUpper t.symbol) with
    | none => rfl
    | some fid =>
        rw [hfid] at hfb
        obtain ⟨hc, hff⟩ := hfb
        simp [hc, hff]
  · have hres : resolveTokenPrice isAddrW ffNoneW pmA tokA = (1, pmA) := by
      decide
    simp only [calculatePortfolioValue, cpvGo, hres]
    norm_num [tokA]
  · norm_num [tokA]

/-- Witness for C8: the closed scenario-A clause of the theorem. -/
theorem calculatePortfolioValue_valuation_witness :
    (calculatePortfolioValue isAddrW ffNoneW pmA [tokA]).tokensWithValue =
      [(tokA, 1)] ∧
    (tokA.balance : ℚ) / 10 ^ tokA.decimals = 1 :=
  ⟨calculatePortfolioValue_valuation.2.2.2.2.1,
   calculatePortfolioValue_valuation.2.2.2.2.2⟩

/-! ## Position emission of the Aave and Yearn resolvers
(src/services/aaveService.ts, src/services/yearnService.ts) -/

/-- The values read for one Aave reserve before the position is
assembled: wallet balances of the interest-bearing and debt tokens,
the ray-scaled rates, and the token metadata. -/
structure AaveReserveRead where
  asset : String
  symbol : String
  aTokenBalance : Nat
  stableDebt : Nat
  variableDebt : Nat
  liquidityRate : Nat
  variableBorrowRate : Nat
  decimals : Nat
deriving Repr, DecidableEq

/-- The emitted Aave position; the formatted decimal strings are
modelled by the exact rationals they denote. -/
structure AavePosition where
  asset : String
  symbol : String
  supplied : ℚ
  borrowed : ℚ
  supplyAPY : ℚ
  borrowAPY : ℚ
deriving Repr, DecidableEq

/-- The borrowAPY computation, same expression as the supply one on
the variable borrow rate. -/
def borrowAPYOf (variableBorrowRate : Nat) : ℚ :=
  jsToFixed2 (formatUnitsQ variableBorrowRate 25 / 100)

/-- The per-reserve position assembly of AaveService.getPositions:
supplied = parseFloat(formatUnits(aTokenBalance, decimals)).toFixed(6),
borrowed likewise on stableDebt + variableDebt, and the position is
returned only if aTokenBalance > 0 or stableDebt > 0 or
variableDebt > 0 (otherwise null). -/
def aaveProcessReserve (r : AaveReserveRead) : Option AavePosition :=
  let supplied := jsToFixed6 (formatUnitsQ r.aTokenBalance r.decimals)
  let borrowed :=
    jsToFixed6 (formatUnitsQ (r.stableDebt + r.variableDebt) r.decimals)
  if r.aTokenBalance > 0 ∨ r.stableDebt > 0 ∨ r.variableDebt > 0 then
    some { asset := r.asset, symbol := r.symbol, supplied := supplied,
           borrowed := borrowed,
           supplyAPY := supplyAPYOf r.liquidityRate,
           borrowAPY := borrowAPYOf r.variableBorrowRate }
  else none

/-- The zero-address sentinel (ethers.constants.AddressZero). -/
def addressZero : String := "0x0000000000000000000000000000000000000000"

/-- The reserve loop of AaveService.getPositions: filter out
zero-address reserves, process each reserve, keep the non-null
results. -/
def aavePositionsOf (reserves : List AaveReserveRead) :
    List AavePosition :=
  (reserves.filter fun r => ¬ r.asset = addressZero).filterMap
    aaveProcessReserve

/-- The values read for one Yearn vault. -/
structure YearnVaultRead where
  vaultAddress : String
  vaultSymbol : String
  tokenAddress : String
  tokenSymbol : String
  balance : Nat
  pricePerShare : Nat
  decimals : Nat
deriving Repr, DecidableEq

/-- The emitted Yearn vault position; formatted decimal strings
modelled by the exact rationals they denote. -/
structure YearnVaultPosition where
  vaultAddress : String
  vaultSymbol : String
  tokenAddress : String
  tokenSymbol : String
  balance : ℚ
  pricePerShare : ℚ
  underlyingBalance : ℚ
deriving Repr, DecidableEq

/-- The per-vault position assembly of YearnService.getPositions: only
if balance > 0, with
underlyingBalance = balance * pricePerShare / 10^decimals in bigint
(floor) arithmetic, all three amounts then formatted with
formatUnits(·, decimals). -/
def yearnProcessVault (v : YearnVaultRead) : Option YearnVaultPosition :=
  if v.balance > 0 then
    let underlying : Nat := v.balance * v.pricePerShare / 10 ^ v.decimals
    some { vaultAddress := v.vaultAddress, vaultSymbol := v.vaultSymbol,
           tokenAddress := v.tokenAddress, tokenSymbol := v.tokenSymbol,
           balance := formatUnitsQ v.balance v.decimals,
           pricePerShare := formatUnitsQ v.pricePerShare v.decimals,
           underlyingBalance := formatUnitsQ underlying v.decimals }
  else none

/-- The vault loop of YearnService.getPositions. -/
def yearnPositionsOf (vaults : List YearnVaultRead) :
    List YearnVaultPosition :=
  vaults.filterMap yearnProcessVault

/-- A reserve holding one wei of dust on an 18-decimal asset. -/
def dustReserve : AaveReserveRead :=
  { asset := "0xdddddddddddddddddddddddddddddddddddddddd",
    symbol := "DUST", aTokenBalance := 1, stableDebt := 0,
    variableDebt := 0, liquidityRate := 0, variableBorrowRate := 0,
    decimals := 18 }

/-- C9, counterexample: a reserve in which the wallet holds one wei of
an 18-decimal asset passes the raw-balance guard, yet the emitted
position's six-decimal supplied and borrowed renderings are both
exactly zero — the returned list contains a position none of whose
amount fields is strictly positive. -/
theorem aave_dust_emits_zero_amount_position :
    aavePositionsOf [dustReserve] =
      [{ asset := "0xdddddddddddddddddddddddddddddddddddddddd",
         symbol := "DUST", supplied := 0, borrowed := 0,
         supplyAPY := 0, borrowAPY := 0 }] := by
  have hfilter : ([dustReserve].filter fun r => ¬ r.asset = addressZero) =
      [dustReserve] := by decide
  unfold aavePositionsOf
  rw [hfilter]
  have hproc : aaveProcessReserve dustReserve =
      some { asset := "0xdddddddddddddddddddddddddddddddddddddddd",
             symbol := "DUST", supplied := 0, borrowed := 0,
             supplyAPY := 0, borrowAPY := 0 } := by
    unfold aaveProcessReserve
    rw [if_pos (by norm_num [dustReserve])]
    norm_num [dustReserve, jsToFixed6, formatUnitsQ, supplyAPYOf,
      borrowAPYOf, jsToFixed2]
  simp [hproc]

/-- C9 amended: every position emitted by the Aave resolver comes from
a reserve in which at least one raw wallet amount (aToken balance,
stable debt or variable debt) is strictly positive, and every position
emitted by the Yearn resolver comes from a vault with a strictly
positive share balance and itself carries a strictly positive balance
field; a reserve or vault in which the wallet has zero in every raw
amount never contributes a position — though the Aave position's
6-decimal supplied/borrowed renderings may round a positive dust
amount down to zero. -/
theorem resolver_positions_positive_amounts :
    (∀ (reserves : List AaveReserveRead) (p : AavePosition),
      p ∈ aavePositionsOf reserves →
      ∃ r, r ∈ reserves ∧ aaveProcessReserve r = some p ∧
        (0 < r.aTokenBalance ∨ 0 < r.stableDebt ∨ 0 < r.variableDebt)) ∧
    (∀ (vaults : List YearnVaultRead) (p : YearnVaultPosition),
      p ∈ yearnPositionsOf vaults →
      0 < p.balance ∧
      ∃ v, v ∈ vaults ∧ yearnProcessVault v = some p ∧ 0 < v.balance) := by
  constructor
  · intro reserves p hp
    unfold aavePositionsOf at hp
    rw [List.mem_filterMap] at hp
    obtain ⟨r, hr, hproc⟩ := hp
    refine ⟨r, List.mem_of_mem_filter hr, hproc, ?_⟩
    by_contra hzero
    push_neg at hzero
    unfold aaveProcessReserve at hproc
    rw [if_neg (by omega)] at hproc
    cases hproc
  · intro vaults p hp
    unfold yearnPositionsOf at hp
    rw [List.mem_filterMap] at hp
    obtain ⟨v, hv, hproc⟩ := hp
    by_cases hbal : 0 < v.balance
    · have hps : p.balance = formatUnitsQ v.balance v.decimals := by
        unfold yearnProcessVault at hproc
        rw [if_pos hbal] at hproc
        cases hproc
        rfl
      refine ⟨?_, v, hv, hproc, hbal⟩
      rw [hps]
      unfold formatUnitsQ
      positivity
    · unfold yearnProcessVault at hproc
      rw [if_neg hbal] at hproc
      cases hproc

/-- A reserve with a positive supplied balance, used as witness
input. -/
def reserveWitness : AaveReserveRead :=
  { asset := "0xabababababababababababababababababababab",
    symbol := "TKN", aTokenBalance := 5, stableDebt := 0,
    variableDebt := 0, liquidityRate := 0, variableBorrowRate := 0,
    decimals := 0 }

/-- Witness for C9's amended theorem at a one-reserve input with a
positive supplied balance. -/
theorem resolver_positions_positive_amounts_witness :
    ∃ r, r ∈ [reserveWitness] ∧
      aaveProcessReserve r =
        some { asset := "0xabababababababababababababababababababab",
               symbol := "TKN", supplied := 5, borrowed := 0,
               supplyAPY := 0, borrowAPY := 0 } ∧
      (0 < r.aTokenBalance ∨ 0 < r.stableDebt ∨ 0 < r.variableDebt) :=
  resolver_positions_positive_amounts.1 [reserveWitness] _
    (by
      have hproc : aaveProcessReserve reserveWitness =
          some { asset := "0xabababababababababababababababababababab",
                 symbol := "TKN", supplied := 5, borrowed := 0,
                 supplyAPY := 0, borrowAPY := 0 } := by
        unfold aaveProcessReserve
        rw [if_pos (by norm_num [reserveWitness])]
        norm_num [reserveWitness, jsToFixed6, formatUnitsQ, supplyAPYOf,
          borrowAPYOf, jsToFixed2]
      unfold aavePositionsOf
      rw [List.mem_filterMap]
      exact ⟨reserveWitness, by decide, hproc⟩)

/-! ## Compound resolver batch consumption
(src/services/compoundService.ts) -/

/-- A decoded multicall return value as it reaches the Compound
position loop via `result.data?.[0]`: a bigint or a string. -/
inductive JsVal where
  | num (n : Nat)
  | str (s : String)
deriving Repr, DecidableEq

/-- The six read calls CompoundService pushes per cToken market, in
source order. -/
def compoundCallsFor (wallet m : String) : List MulticallCall :=
  [{ target := m, functionName := "balanceOf", params := [wallet],
     allowFailure := some true },
   { target := m, functionName := "borrowBalanceStored", params := [wallet],
     allowFailure := some true },
   { target := m, functionName := "exchangeRateStored", params := [],
     allowFailure := some true },
   { target := m, functionName := "symbol", params := [],
     allowFailure := some true },
   { target := m, functionName := "decimals", params := [],
     allowFailure := some true },
   { target := m, functionName := "underlying", params := [],
     allowFailure := some true }]

/-- The full call list CompoundService builds: six consecutive calls
per market, in market order. -/
def compoundCalls (wallet : String) (markets : List String) :
    List MulticallCall :=
  markets.bind (compoundCallsFor wallet)

/-- `data?.[0]` when the decoded value is a bigint. -/
def getNum : Option JsVal → Option Nat
  | some (.num n) => some n
  | _ => none

/-- `data?.[0]` when the decoded value is a string. -/
def getStr : Option JsVal → Option String
  | some (.str s) => some s
  | _ => none

/-- `typeof v === 'bigint' && v > 0n`. -/
def jsPos : Option JsVal → Bool
  | some (.num n) => decide (0 < n)
  | _ => false

/-- The emitted Compound position; the formatted decimal strings are
modelled by the exact rationals they denote. -/
structure CompoundPosition where
  protocol : String
  chain : String
  asset : String
  assetAddress : String
  supplied : ℚ
  borrowed : ℚ
  supplyAPY : ℚ
  borrowAPY : ℚ
deriving Repr, DecidableEq

/-- The hard-coded cETH address special-cased by the loop. -/
def cEthAddress : String := "0x4ddc2d193948926d02f9b1fe9e1daa0718270ed5"

/-- The body of one iteration of the Compound position loop, applied
to one market's six CallResults (balanceOf, borrowBalanceStored,
exchangeRateStored, symbol, decimals, underlying, in this order): skip
the market if any of the six failed, skip if neither the cToken
balance nor the borrow balance is a positive bigint, otherwise emit a
position with
underlyingBalance = supplied * exchangeRate / 10^18 (zero when the
exchange rate is zero or not a bigint), decimals defaulting to 18 when
zero or missing, and the cETH symbol/address special case. -/
def processMarket (chainName cTokenAddress : String)
    (g : List (CallResult JsVal)) : Option CompoundPosition :=
  if g.any fun r => !r.success then none
  else
    let suppliedCToken := ((g.get? 0).map (·.data)).join
    let borrowedV := ((g.get? 1).map (·.data)).join
    let exchangeRateV := ((g.get? 2).map (·.data)).join
    let symbolV := ((g.get? 3).map (·.data)).join
    let decimalsV := ((g.get? 4).map (·.data)).join
    let underlyingV := ((g.get? 5).map (·.data)).join
    let hasSupply := jsPos suppliedCToken
    let hasBorrow := jsPos borrowedV
    if ¬hasSupply ∧ ¬hasBorrow then none
    else
      let isCEth := strLower cTokenAddress = cEthAddress
      let assetSymbol :=
        if isCEth then some "ETH" else getStr symbolV
      let assetAddress :=
        if isCEth then some addressZero else getStr underlyingV
      let xr := (getNum exchangeRateV).getD 0
      let underlyingBalance : Nat :=
        if hasSupply ∧ xr ≠ 0 then
          ((getNum suppliedCToken).getD 0) * xr / 10 ^ 18
        else 0
      let d :=
        match getNum decimalsV with
        | some n => if n = 0 then 18 else n
        | none => 18
      some { protocol := "compound", chain := chainName,
             asset := assetSymbol.getD "UNKNOWN",
             assetAddress := assetAddress.getD addressZero,
             supplied := formatUnitsQ underlyingBalance d,
             borrowed := formatUnitsQ
               (if hasBorrow then (getNum borrowedV).getD 0 else 0) d,
             supplyAPY := 0, borrowAPY := 0 }

/-- The Compound position loop: the i-th market consumes the slice of
six results starting at index 6i; a slice shorter than six models the
out-of-bounds access that aborts the loop through the outer catch
(producing nothing further). -/
def compoundProcessGo (chainName : String) :
    List String → List (CallResult JsVal) → List CompoundPosition
  | [], _ => []
  | m :: ms, results =>
      let g := results.take 6
      if g.length < 6 then []
      else
        match processMarket chainName m g with
        | some p => p :: compoundProcessGo chainName ms (results.drop 6)
        | none => compoundProcessGo chainName ms (results.drop 6)

theorem compoundCallsFor_length (wallet m : String) :
    (compoundCallsFor wallet m).length = 6 := rfl

theorem compoundCalls_get? (wallet : String) (markets : List String)
    (i j : Nat) (hi : i < markets.length) (hj : j < 6) :
    (compoundCalls wallet markets).get? (6 * i + j) =
      (markets.get? i).bind fun m => (compoundCallsFor wallet m).get? j := by
  induction markets generalizing i with
  | nil => simp at hi
  | cons m ms ih =>
      cases i with
      | zero =>
          simp only [compoundCalls, List.cons_bind, Nat.mul_zero,
            Nat.zero_add, List.get?]
          rw [List.get?_append (by simp [compoundCallsFor_length, hj])]
          rfl
      | succ i' =>
          have h6 : 6 * (i' + 1) + j = 6 + (6 * i' + j) := by ring
          simp only [compoundCalls, List.cons_bind, h6, List.get?]
          rw [List.get?_append_right (by simp [compoundCallsFor_length])]
          have : 6 + (6 * i' + j) - (compoundCallsFor wallet m).length =
              6 * i' + j := by simp [compoundCallsFor_length]
          rw [this]
          exact ih i' (by simpa using hi)

theorem processMarket_none_of_failure (chainName m : String)
    (g : List (CallResult JsVal)) (r : CallResult JsVal)
    (hr : r ∈ g) (hfail : r.success = false) :
    processMarket chainName m g = none := by
  unfold processMarket
  rw [if_pos]
  rw [List.any_eq_true]
  exact ⟨r, hr, by simp [hfail]⟩

theorem compoundProcessGo_eq (chainName : String) (markets : List String)
    (results : List (CallResult JsVal))
    (h : results.length = 6 * markets.length) :
    compoundProcessGo chainName markets results =
      (List.range markets.length).filterMap fun i =>
        (markets.get? i).bind fun m =>
          processMarket chainName m ((results.drop (6 * i)).take 6) := by
  induction markets generalizing results with
  | nil => simp [compoundProcessGo]
  | cons m ms ih =>
      have h' : results.length = 6 * ms.length + 6 := by
        simp only [List.length_cons] at h
        omega
      have hlen : (results.take 6).length = 6 := by
        simp [List.length_take]
        omega
      have hdrop : (results.drop 6).length = 6 * ms.length := by
        simp [List.length_drop]
        omega
      have hrange : List.range (ms.length + 1) =
          0 :: (List.range ms.length).map Nat.succ := by
        exact List.range_succ_eq_map ms.length
      simp only [compoundProcessGo, List.length_cons, hrange,
        List.filterMap_cons, List.filterMap_map]
      rw [if_neg (by rw [hlen]; omega)]
      have htail : ∀ i : Nat,
          ((m :: ms).get? (Nat.succ i)).bind
            (fun m' => processMarket chainName m'
              ((results.drop (6 * Nat.succ i)).take 6)) =
          (ms.get? i).bind
            (fun m' => processMarket chainName m'
              (((results.drop 6).drop (6 * i)).take 6)) := by
        intro i
        have : (results.drop (6 * Nat.succ i)) =
            ((results.drop 6).drop (6 * i)) := by
          rw [List.drop_drop]
          congr 1
          omega
        rw [this]
        rfl
      have hcomp :
          (List.range ms.length).filterMap
            ((fun i => ((m :: ms).get? i).bind fun m' =>
              processMarket chainName m'
                ((results.drop (6 * i)).take 6)) ∘ Nat.succ) =
          (List.range ms.length).filterMap fun i =>
            (ms.get? i).bind fun m' =>
              processMarket chainName m'
                (((results.drop 6).drop (6 * i)).take 6) := by
        apply List.filterMap_congr
        intro i _
        exact htail i
      simp only [Function.comp] at hcomp ⊢
      rw [hcomp, ← ih (results.drop 6) hdrop]
      simp only [Nat.mul_zero, List.drop_zero, List.get?, Option.some_bind]
      cases processMarket chainName m (results.take 6) <;> rfl

/-- C10: the Compound resolver builds six consecutive calls per market
(balanceOf, borrowBalanceStored, exchangeRateStored, symbol, decimals,
underlying, in this order, all targeting that market's cToken), the
batch results are consumed positionally — market i reads exactly the
six results at indices 6i..6i+5 — and a market any one of whose six
calls failed is skipped entirely, with no condition on the wallet's
balances: a positive balance with only a failed metadata call still
contributes no position. -/
theorem compound_six_call_groups :
    (∀ (wallet m : String),
      (compoundCallsFor wallet m).map (·.functionName) =
        ["balanceOf", "borrowBalanceStored", "exchangeRateStored",
         "symbol", "decimals", "underlying"] ∧
      ∀ c ∈ compoundCallsFor wallet m, c.target = m) ∧
    (∀ (wallet : String) (markets : List String) (i j : Nat),
      i < markets.length → j < 6 →
      (compoundCalls wallet markets).get? (6 * i + j) =
        (markets.get? i).bind fun m =>
          (compoundCallsFor wallet m).get? j) ∧
    (∀ (chainName : String) (markets : List String)
        (results : List (CallResult JsVal)),
      results.length = 6 * markets.length →
      compoundProcessGo chainName markets results =
        (List.range markets.length).filterMap fun i =>
          (markets.get? i).bind fun m =>
            processMarket chainName m ((results.drop (6 * i)).take 6)) ∧
    (∀ (chainName m : String) (g : List (CallResult JsVal))
        (r : CallResult JsVal),
      r ∈ g → r.success = false →
      processMarket chainName m g = none) := by
  refine ⟨?_, ?_, ?_, ?_⟩
  · intro wallet m
    refine ⟨rfl, ?_⟩
    intro c hc
    simp only [compoundCallsFor, List.mem_cons, List.mem_singleton] at hc
    rcases hc with rfl | rfl | rfl | rfl | rfl | rfl | h
    · rfl
    · rfl
    · rfl
    · rfl
    · rfl
    · rfl
    · simp at h
  · exact compoundCalls_get?
  · exact compoundProcessGo_eq
  · exact processMarket_none_of_failure

/-- One market's six results in which balanceOf succeeded with a
positive balance but the underlying metadata call failed. -/
def groupWitness : List (CallResult JsVal) :=
  [{ success := true, data := some (.num 100), error := none },
   { success := true, data := some (.num 0), error := none },
   { success := true, data := some (.num (2 * 10 ^ 17)), error := none },
   { success := true, data := some (.str "cDAI"), error := none },
   { success := true, data := some (.num 8), error := none },
   { success := false, data := none, error := some "Call failed" }]

/-- Witness for C10: a positive-balance market whose underlying call
failed is skipped. -/
theorem compound_six_call_groups_witness :
    processMarket "ethereum" "0xC0" groupWitness = none :=
  compound_six_call_groups.2.2.2 "ethereum" "0xC0" groupWitness
    { success := false, data := none, error := some "Call failed" }
    (by simp [groupWitness]) rfl
